import Mathlib

/-!
Verification of the pymux core against its sources.

Shallow embedding of the parts of `pymux/process.py`, `pymux/client.py`,
`pymux/layout.py` and `pymux/commands/commands.py` that the checked
properties are about.  Python strings are embedded as Lean `String`,
byte buffers as `List Nat`, dictionaries as association lists in
insertion order, and fallible operations return `Option` (with `none`
standing for a raised exception where the doc comment says so).
-/

namespace Pymux

/-! ### Process state (`pymux/process.py`) -/

/-- State of a `Process` relevant to writing and signalling: the pty master
fd (`self.master`, `none` once closed), the child pid (`self.pid`, `none`
before the fork), the `self.is_terminated` flag, and the emulator flag
`self.screen.bracketed_paste_enabled` consulted by `write_input`. -/
structure Process where
  master : Option Nat
  pid : Option Nat
  is_terminated : Bool
  bracketed_paste_enabled : Bool
deriving DecidableEq, Repr

/-- The `done` callback inside `Process._waitpid`: after the child has been
reaped it closes the pty master, sets `self.master = None` and
`self.is_terminated = True` (the `done_callback` side effect is external). -/
def waitpid_done (p : Process) : Process :=
  { p with master := none, is_terminated := true }

/-- Outcome of one `os.write` call on the master fd: success, or an
`OSError` carrying the given `errno`. -/
inductive WriteAttempt where
  | ok
  | err (errno : Nat)
deriving DecidableEq, Repr

/-- The `while self.master is not None` retry loop of `Process.write_input`,
run against a trace of `os.write` outcomes.  Every `OSError` is caught; when
`errno == 4` the loop continues (retries), otherwise the function returns.
Result `some (calls, delivered)`: `calls` counts `os.write` invocations and
`delivered` tells whether one of them succeeded; `none` means the supplied
trace ran out while the loop would still be retrying. -/
def write_loop : List WriteAttempt → Option (Nat × Bool)
  | [] => none
  | .ok :: _ => some (1, true)
  | .err e :: rest =>
    if e = 4 then
      match write_loop rest with
      | some r => some (r.1 + 1, r.2)
      | none => none
    else
      some (1, false)

/-- The payload `Process.write_input` hands to `os.write`: when `paste` and
`self.screen.bracketed_paste_enabled`, the data is wrapped in the bracketed
paste start and end markers, otherwise it is passed through unchanged. -/
def write_payload (p : Process) (data : String) (paste : Bool) : String :=
  if paste && p.bracketed_paste_enabled then
    "\x1b[200~" ++ data ++ "\x1b[201~"
  else
    data

/-- `Process.write_input(data, paste)`: computes the payload, then runs the
retry loop — but only while `self.master is not None`; with the master fd
cleared the loop body never executes and the call returns at once.  The
first component is the payload each `os.write` call would send, the second
is the loop outcome (`some (0, false)` = returned with zero `os.write`
calls).  No exception ever escapes: `OSError` is always caught. -/
def write_input (p : Process) (data : String) (paste : Bool)
    (attempts : List WriteAttempt) : String × Option (Nat × Bool) :=
  match p.master with
  | none => (write_payload p data paste, some (0, false))
  | some _ => (write_payload p data paste, write_loop attempts)

/-- Python truthiness of `self.pid` in `if self.pid and not self.is_terminated`:
`None` and `0` are falsy. -/
def pid_truthy : Option Nat → Bool
  | none => false
  | some n => n != 0

/-- A signal delivery performed by the parent: `os.kill(pid, sig)` targets a
single process; `os.killpg`-style delivery would target the process group. -/
inductive KillTarget where
  | process (pid : Nat) (sig : Nat)
  | group (pgid : Nat) (sig : Nat)
deriving DecidableEq, Repr

/-- `Process.send_signal(signal)`: `if self.pid and not self.is_terminated:
os.kill(self.pid, signal)`.  `none` means no delivery (and no error). -/
def send_signal (p : Process) (sig : Nat) : Option KillTarget :=
  if pid_truthy p.pid && !p.is_terminated then
    some (.process (p.pid.getD 0) sig)
  else
    none

/-! ### Child-side spawn (`Process.from_command` / `Process._in_child`) -/

/-- How the child side of the fork ends: the process image was replaced by a
successful `os.execv`, or the child reached an `os._exit(status)` call. -/
inductive ChildResult where
  | execed (path : String)
  | exited (status : Nat)
deriving DecidableEq, Repr

/-- The PATH scan of the `execv` closure built in `Process.from_command`:
for each entry `p` of `PATH`, the candidate is `os.path.join(p, command[0])`,
and the first candidate with `os.path.exists` and `os.access(..., X_OK)` is
handed to `os.execv`.  If no candidate qualifies the closure just returns. -/
def execv_search (path_entries : List String) (cmd : String)
    (path_exists : String → Bool) (access_x_ok : String → Bool) : Option String :=
  (path_entries.map (fun p => p ++ "/" ++ cmd)).find?
    (fun path => path_exists path && access_x_ok path)

/-- The tail of `Process._in_child`: `try: ...; self.exec_func() except
Exception: ...; os._exit(1)` followed by `os._exit(0)`.  A successful
`os.execv` replaces the image; an `os.execv` that raises `OSError` is caught
by the `except` and the child exits 1; when the PATH scan finds nothing the
closure returns normally and the child falls through to `os._exit(0)`. -/
def in_child (path_entries : List String) (cmd : String)
    (path_exists access_x_ok : String → Bool)
    (exec_succeeds : String → Bool) : ChildResult :=
  match execv_search path_entries cmd path_exists access_x_ok with
  | some path => if exec_succeeds path then .execed path else .exited 1
  | none => .exited 0

/-! ### Client mode stack (`pymux/client.py`, `Client._process`) -/

/-- A terminal-mode context manager as pushed on
`Client._mode_context_managers`: `raw_mode(...)` or `cooked_mode(...)`. -/
inductive TermMode where
  | raw
  | cooked
deriving DecidableEq, Repr

/-- Observable effect of the `mode` branch of `Client._process`: the stack
after the packet, which context (if any) was entered (`cm.enter`) and
which was exited (`cm.exit`). -/
structure ModeEffect where
  stack : List TermMode
  entered : Option TermMode
  exited : Option TermMode
deriving DecidableEq, Repr

/-- The `elif packet['cmd'] == 'mode'` branch of `Client._process`.
`_mode_context_managers` is kept in push order: `raw`/`cooked` enter a new
context and `append` it, `restore` (with a non-empty stack) `pop`s the last
one and exits it; any other data, or `restore` on an empty stack, does
nothing. -/
def process_mode (stack : List TermMode) (action : String) : ModeEffect :=
  if action = "raw" then
    ⟨stack ++ [.raw], some .raw, none⟩
  else if action = "cooked" then
    ⟨stack ++ [.cooked], some .cooked, none⟩
  else if action = "restore" ∧ stack ≠ [] then
    ⟨stack.dropLast, none, stack.getLast?⟩
  else
    ⟨stack, none, none⟩

/-! ### Receive-loop packet framing (`Client.attach` / `Client._send_packet`) -/

/-- The `while b'\0' in data_buffer` loop of `Client.attach`: repeatedly take
the bytes before the first NUL as one packet (delivered to `self._process`)
and continue with the bytes after that NUL.  Returns the delivered packets in
order and the remaining buffer. -/
def drain_buffer (buf : List Nat) : List (List Nat) × List Nat :=
  if h : (0 : Nat) ∈ buf then
    (buf.take (buf.indexOf 0) ::
       (drain_buffer (buf.drop (buf.indexOf 0 + 1))).1,
     (drain_buffer (buf.drop (buf.indexOf 0 + 1))).2)
  else
    ([], buf)
termination_by buf.length
decreasing_by
  all_goals
    have hlt : buf.indexOf 0 < buf.length := List.indexOf_lt_length.mpr h
    simp only [List.length_drop]
    omega

/-- Feeding a sequence of `socket.recv` chunks through the receive loop,
starting with buffer `buf`: each chunk is appended (`data_buffer += data`)
and the buffer drained.  Returns all packets delivered to `_process`, in
order, plus the final buffer. -/
def recv_chunks (buf : List Nat) : List (List Nat) → List (List Nat) × List Nat
  | [] => ([], buf)
  | c :: cs =>
    ((drain_buffer (buf ++ c)).1 ++ (recv_chunks (drain_buffer (buf ++ c)).2 cs).1,
     (recv_chunks (drain_buffer (buf ++ c)).2 cs).2)

/-- The wire image produced by sending each packet with `Client._send_packet`
(`self.socket.send(data + b'\0')`): every packet's bytes followed by one NUL. -/
def encode_packets (ps : List (List Nat)) : List Nat :=
  (ps.map (fun p => p ++ [0])).flatten

/-! ### Mouse handler (`pymux/layout.py`, `PaneContainer.mouse_handler`) -/

/-- The four prompt_toolkit mouse event types the handler dictionaries key on. -/
inductive MouseEventType where
  | mouse_down
  | mouse_up
  | scroll_up
  | scroll_down
deriving DecidableEq, Repr

/-- The three mouse-reporting flags of the pane's screen that the handler
consults, in the order the `if`/`elif` chain tests them. -/
structure MouseModes where
  sgr_mouse_support_enabled : Bool
  urxvt_mouse_support_enabled : Bool
  mouse_support_enabled : Bool
deriving DecidableEq, Repr

/-- The Xterm SGR dictionary `(ev, m)` of `mouse_handler`. -/
def sgr_code : MouseEventType → String × String
  | .mouse_down => ("0", "M")
  | .mouse_up => ("0", "m")
  | .scroll_up => ("64", "M")
  | .scroll_down => ("65", "M")

/-- The urxvt-mode event-code dictionary of `mouse_handler`. -/
def urxvt_code : MouseEventType → Nat
  | .mouse_down => 32
  | .mouse_up => 35
  | .scroll_up => 96
  | .scroll_down => 97

/-- The legacy-mode event-code dictionary of `mouse_handler` (textually the
same table as the urxvt one in the source). -/
def legacy_code : MouseEventType → Nat
  | .mouse_down => 32
  | .mouse_up => 35
  | .scroll_up => 96
  | .scroll_down => 97

/-- `PaneContainer.mouse_handler` for an already-focused pane: the string
passed to `process.write_input`, or `none` when nothing is written.  SGR mode
is tested first, then urxvt mode, then legacy mode; legacy mode only reports
events with `x < 96 and y < 96`, encoded as `'\x1b[M'` plus the three
characters `chr(ev)`, `chr(x + 33)`, `chr(y + 33)`. -/
def mouse_handler (modes : MouseModes) (ev : MouseEventType) (x y : Nat) :
    Option String :=
  if modes.sgr_mouse_support_enabled then
    some ("\x1b[<" ++ (sgr_code ev).1 ++ ";" ++ toString (x + 1) ++ ";" ++
      toString (y + 1) ++ (sgr_code ev).2)
  else if modes.urxvt_mouse_support_enabled then
    some ("\x1b[" ++ toString (urxvt_code ev) ++ ";" ++ toString (x + 1) ++ ";" ++
      toString (y + 1) ++ "M")
  else if modes.mouse_support_enabled then
    if x < 96 ∧ y < 96 then
      some ("\x1b[M" ++ String.singleton (Char.ofNat (legacy_code ev)) ++
        String.singleton (Char.ofNat (x + 33)) ++ String.singleton (Char.ofNat (y + 33)))
    else
      none
  else
    none

/-! ### Directional focus movement (`pymux/layout.py`, `_move_focus`) -/

/-- A prompt_toolkit `WritePosition`: the rendered bounding box of a pane as
recorded in `layout_manager.pane_write_positions`. -/
structure WritePosition where
  xpos : Int
  ypos : Int
  width : Int
  height : Int
deriving DecidableEq, Repr

/-- The containment test of the `for pane, wp in ...` loop in `_move_focus`:
`wp.xpos <= x < wp.xpos + wp.width and wp.ypos <= y < wp.ypos + wp.height`. -/
def wp_contains (wp : WritePosition) (x y : Int) : Prop :=
  wp.xpos ≤ x ∧ x < wp.xpos + wp.width ∧ wp.ypos ≤ y ∧ y < wp.ypos + wp.height

instance (wp : WritePosition) (x y : Int) : Decidable (wp_contains wp x y) := by
  unfold wp_contains
  infer_instance

/-- Panes are identified by a stable id. -/
abbrev PaneId := Nat

/-- The snapshot `layout_manager.pane_write_positions`: an insertion-ordered
mapping from panes to their last rendered bounding box. -/
abbrev PaneWritePositions := List (PaneId × WritePosition)

/-- The four directional focus commands. -/
inductive Direction where
  | left
  | right
  | down
  | up
deriving DecidableEq, Repr

/-- The probe point: the `get_x`/`get_y` lambdas passed to `_move_focus` by
`focus_left` (`xpos - 2`, skipping the border), `focus_right`
(`xpos + width + 1`), `focus_down` (`ypos + height + 1`) and `focus_up`
(`ypos - 1`). -/
def probe_point (d : Direction) (wp : WritePosition) : Int × Int :=
  match d with
  | .left => (wp.xpos - 2, wp.ypos)
  | .right => (wp.xpos + wp.width + 1, wp.ypos)
  | .down => (wp.xpos, wp.ypos + wp.height + 1)
  | .up => (wp.xpos, wp.ypos - 1)

/-- Dictionary lookup `pane_write_positions[window.active_pane]`; `none`
models the `KeyError` raised when the active pane has no recorded box. -/
def lookup_wp (g : PaneWritePositions) (p : PaneId) : Option WritePosition :=
  (g.find? (fun e => e.1 == p)).map (fun e => e.2)

/-- `_move_focus`: look up the active pane's box (raising `KeyError`, i.e.
`none`, when absent), compute the probe point, and activate the first pane in
the snapshot whose box contains it; when no box contains the probe point the
active pane is left unchanged.  `some p` is the active pane after the call. -/
def move_focus (g : PaneWritePositions) (active : PaneId) (d : Direction) :
    Option PaneId :=
  match lookup_wp g active with
  | none => none
  | some wp =>
    match g.find? (fun e =>
        decide (wp_contains e.2 (probe_point d wp).1 (probe_point d wp).2)) with
    | some e => some e.1
    | none => some active

/-! ### select-layout command (`pymux/commands/commands.py`) -/

/-- Modelled from the spec: the per-window state touched by `select_layout`.
`Window.select_layout` and `LayoutTypes` live in `pymux/arrangement.py`,
which is not among the sources; per the spec a window carries "a chosen
layout algorithm identifier" and selecting a layout switches it. -/
structure WindowState where
  layout_type : String
deriving DecidableEq, Repr

/-- Modelled from the spec: `Window.select_layout(layout_type)` records the
chosen layout identifier on the window ("switches among a fixed ordered set
of named layout algorithms"). -/
def window_select_layout (w : WindowState) (t : String) : WindowState :=
  { w with layout_type := t }

/-- Result of running a command handler body: a normal return with the
updated window, or a raised `CommandException` with its message. -/
inductive HandlerResult where
  | ok (w : WindowState)
  | commandException (msg : String)
deriving DecidableEq, Repr

/-- The `select-layout` handler: `if layout_type in LayoutTypes._ALL:
...select_layout(layout_type) else: raise CommandException('Invalid layout
type.')`.  The set `LayoutTypes._ALL` is passed in as `all`. -/
def select_layout (all : List String) (w : WindowState) (layout_type : String) :
    HandlerResult :=
  if layout_type ∈ all then
    .ok (window_select_layout w layout_type)
  else
    .commandException "Invalid layout type."

/-- `call_command_handler` dispatching to the `select-layout` handler: a
`CommandException` raised by the handler is caught and its message passed to
`pymux.show_message`.  Returns the window after the call and the message
shown, if any; no exception escapes the dispatcher. -/
def call_select_layout (all : List String) (w : WindowState)
    (layout_type : String) : WindowState × Option String :=
  match select_layout all w layout_type with
  | .ok w2 => (w2, none)
  | .commandException msg => (w, some msg)

end Pymux

namespace Pymux

/-! ### Theorems -/

/-- Helper: the retry loop delivers the payload after any finite burst of
interrupted-syscall errors followed by a successful `os.write`. -/
theorem write_loop_eintr_retry (k : Nat) :
    write_loop (List.replicate k (.err 4) ++ [.ok]) = some (k + 1, true) := by
  induction k with
  | zero => rfl
  | succ n ih => simp [List.replicate_succ, write_loop, ih]

/-- C9: processing a `mode` packet with data `restore` while the client's
mode-context stack is empty is a safe no-op: nothing is popped, no context is
entered or exited, no exception is raised, and the stack stays empty. -/
theorem c9_restore_empty_noop :
    process_mode [] "restore" = ⟨[], none, none⟩ := by
  decide

/-- C6: a `mode` packet with data `raw` or `cooked` enters the corresponding
terminal-mode context and pushes it onto `_mode_context_managers`, and data
`restore` pops exactly the most recently pushed context and exits it
(last-in-first-out), leaving the earlier contexts untouched. -/
theorem c6_mode_stack_lifo (stack : List TermMode) (m : TermMode) :
    process_mode stack "raw" = ⟨stack ++ [.raw], some .raw, none⟩ ∧
    process_mode stack "cooked" = ⟨stack ++ [.cooked], some .cooked, none⟩ ∧
    process_mode (stack ++ [m]) "restore" = ⟨stack, none, some m⟩ := by
  refine ⟨if_pos rfl, ?_, ?_⟩
  · unfold process_mode
    rw [if_neg (by decide), if_pos rfl]
  · unfold process_mode
    rw [if_neg (by decide), if_neg (by decide),
      if_pos ⟨rfl, by simp⟩]
    simp [List.dropLast_concat, List.getLast?_concat]

/-- C4: `write_input` sends the payload wrapped in the bracketed-paste
start marker `ESC [ 2 0 0 ~` and end marker `ESC [ 2 0 1 ~` precisely when
`paste` is true and the emulator's bracketed-paste mode is enabled, and sends
the payload unmodified otherwise; and a write interrupted by `OSError` with
`errno == 4` is retried until it succeeds rather than raising. -/
theorem c4_write_input_paste (p : Process) (data : String) (paste : Bool)
    (attempts : List WriteAttempt) (fd k : Nat) :
    ((write_input p data paste attempts).1 = "\x1b[200~" ++ data ++ "\x1b[201~" ↔
       paste = true ∧ p.bracketed_paste_enabled = true) ∧
    ((write_input p data paste attempts).1 = data ↔
       ¬ (paste = true ∧ p.bracketed_paste_enabled = true)) ∧
    (write_input { p with master := some fd } data paste
        (List.replicate k (.err 4) ++ [.ok])).2 = some (k + 1, true) := by
  have hfst : (write_input p data paste attempts).1 = write_payload p data paste := by
    unfold write_input
    cases p.master <;> rfl
  have hlen : ("\x1b[200~" ++ data ++ "\x1b[201~").length = data.length + 12 := by
    have h1 : "\x1b[200~".length = 6 := rfl
    have h2 : "\x1b[201~".length = 6 := rfl
    simp only [String.length_append, h1, h2]
    omega
  have hne : "\x1b[200~" ++ data ++ "\x1b[201~" ≠ data := by
    intro hcontra
    have := congrArg String.length hcontra
    omega
  refine ⟨?_, ?_, ?_⟩
  · rw [hfst]
    unfold write_payload
    by_cases hc : paste && p.bracketed_paste_enabled
    · rw [if_pos hc]
      simp only [Bool.and_eq_true] at hc
      exact ⟨fun _ => hc, fun _ => rfl⟩
    · rw [if_neg hc]
      simp only [Bool.and_eq_true] at hc
      exact ⟨fun habs => absurd habs.symm hne, fun habs => absurd habs hc⟩
  · rw [hfst]
    unfold write_payload
    by_cases hc : paste && p.bracketed_paste_enabled
    · rw [if_pos hc]
      simp only [Bool.and_eq_true] at hc
      exact ⟨fun habs => absurd habs hne, fun habs => absurd hc habs⟩
    · rw [if_neg hc]
      simp only [Bool.and_eq_true] at hc
      exact ⟨fun _ => hc, fun _ => rfl⟩
  · unfold write_input
    simp only
    exact write_loop_eintr_retry k

/-- C5: once the `done` callback of `_waitpid` has closed and cleared the
master fd on child termination, any subsequent `write_input` call performs
zero `os.write` calls and returns normally (no exception): the `while
self.master is not None` guard fails immediately. -/
theorem c5_no_write_after_close (p : Process) (data : String) (paste : Bool)
    (attempts : List WriteAttempt) :
    (waitpid_done p).master = none ∧
    (write_input (waitpid_done p) data paste attempts).2 = some (0, false) := by
  exact ⟨rfl, rfl⟩

/-- C2 fails on the code: with a command whose executable exists in no PATH
entry, the `execv` closure's scan finds no candidate and returns normally,
`_in_child` falls through its `try` block, and the child reaches
`os._exit(0)` — exit status 0, not a non-zero failure status. -/
theorem c2_exec_not_found_exits_zero :
    in_child ["/bin", "/usr/bin"] "no-such-program"
      (fun _ => false) (fun _ => false) (fun _ => true) = ChildResult.exited 0 := by
  rfl

/-- C8 as stated is false: when the child is alive, `send_signal` calls
`os.kill(self.pid, signal)`, a delivery to the single child process, not to
the child's process group (`os.killpg` is never used). -/
theorem c8_counterexample :
    send_signal ⟨some 3, some 5, false, false⟩ 15 = some (KillTarget.process 5 15) ∧
    send_signal ⟨some 3, some 5, false, false⟩ 15 ≠ some (KillTarget.group 5 15) := by
  decide

/-- C8 (amended): for every signal value, if the child has been started
(`self.pid` truthy) and has not terminated, `send_signal` delivers the signal
via `os.kill` to the child process itself (not the process group); if the
child has already terminated, or was never started, no delivery is performed
and no error is raised. -/
theorem c8_send_signal (p : Process) (sig : Nat) :
    (∀ pid, p.pid = some pid → pid ≠ 0 → p.is_terminated = false →
       send_signal p sig = some (KillTarget.process pid sig)) ∧
    (p.is_terminated = true → send_signal p sig = none) ∧
    (p.pid = none → send_signal p sig = none) := by
  refine ⟨?_, ?_, ?_⟩
  · intro pid hpid hne hterm
    unfold send_signal
    rw [hpid] at *
    simp [pid_truthy, hne, hterm]
  · intro hterm
    unfold send_signal
    simp [hterm]
  · intro hpid
    unfold send_signal
    simp [hpid, pid_truthy]

/-- Witness for C8: a live child with pid 5 receives SIGKILL via `os.kill`;
a terminated child yields no delivery. -/
theorem c8_send_signal_witness :
    send_signal ⟨some 3, some 5, false, false⟩ 9 = some (KillTarget.process 5 9) ∧
    send_signal ⟨some 3, some 5, true, false⟩ 9 = none :=
  ⟨(c8_send_signal ⟨some 3, some 5, false, false⟩ 9).1 5 rfl (by decide) rfl,
   (c8_send_signal ⟨some 3, some 5, true, false⟩ 9).2.1 rfl⟩

/-- C7: invoking `select-layout` with a layout name outside the known set
raises `CommandException`, which `call_command_handler` catches and surfaces
through `show_message` as a transient status message; the window's layout is
not modified and no exception escapes the dispatcher. -/
theorem c7_invalid_layout (all : List String) (w : WindowState) (t : String)
    (h : t ∉ all) :
    call_select_layout all w t = (w, some "Invalid layout type.") := by
  unfold call_select_layout select_layout
  rw [if_neg h]

/-- Witness for C7: the name `bogus` is not a layout type; the window keeps
its layout and the invalid-layout message is shown. -/
theorem c7_invalid_layout_witness :
    "bogus" ∉ ["even-horizontal", "even-vertical", "tiled"] ∧
    call_select_layout ["even-horizontal", "even-vertical", "tiled"]
        ⟨"tiled"⟩ "bogus" = (⟨"tiled"⟩, some "Invalid layout type.") :=
  ⟨by decide, c7_invalid_layout _ _ _ (by decide)⟩

/-- C10: SGR mouse mode takes precedence over urxvt mode, which takes
precedence over legacy mode (the handler's output never depends on
lower-priority flags); and with only legacy reporting enabled, an event at
zero-based `(x, y)` with `x ≥ 96` or `y ≥ 96` writes nothing, while an event
with `x < 96` and `y < 96` writes `'\x1b[M'` followed by the event character
and the characters `chr(x + 33)` and `chr(y + 33)`. -/
theorem c10_mouse_legacy (ev : MouseEventType) (x y : Nat) (u m u2 m2 : Bool) :
    mouse_handler ⟨true, u, m⟩ ev x y = mouse_handler ⟨true, u2, m2⟩ ev x y ∧
    mouse_handler ⟨false, true, m⟩ ev x y = mouse_handler ⟨false, true, m2⟩ ev x y ∧
    mouse_handler ⟨false, false, true⟩ ev x y =
      (if x < 96 ∧ y < 96 then
         some ("\x1b[M" ++ String.singleton (Char.ofNat (legacy_code ev)) ++
           String.singleton (Char.ofNat (x + 33)) ++ String.singleton (Char.ofNat (y + 33)))
       else
         none) := by
  refine ⟨rfl, rfl, rfl⟩

/-- C1 as stated is false: the claim quantifies over every render-geometry
snapshot, but when the snapshot has no entry for the active pane the lookup
`pane_write_positions[window.active_pane]` in `_move_focus` raises `KeyError`
(modelled as `none`): with the empty snapshot and any direction the
operation raises rather than leaving focus unchanged. -/
theorem c1_counterexample : move_focus [] 0 Direction.left = none := rfl

/-- C1 (amended): provided the render-geometry snapshot has an entry for the
active pane, the directional focus move is total: it returns (never raises)
a new active pane that either is the unchanged active pane or appears in the
snapshot with a bounding box containing the probe point computed just
outside the active pane's edge in the requested direction — so it never
activates a pane absent from the snapshot of the current window. -/
theorem c1_move_focus_total (g : PaneWritePositions) (a : PaneId) (d : Direction)
    (wp : WritePosition) (h : lookup_wp g a = some wp) :
    ∃ a2, move_focus g a d = some a2 ∧
      (a2 = a ∨ ∃ wp2, (a2, wp2) ∈ g ∧
        wp_contains wp2 (probe_point d wp).1 (probe_point d wp).2) := by
  unfold move_focus
  rw [h]
  dsimp only
  cases hf : g.find? (fun e =>
      decide (wp_contains e.2 (probe_point d wp).1 (probe_point d wp).2)) with
  | none => exact ⟨a, rfl, Or.inl rfl⟩
  | some e =>
    refine ⟨e.1, rfl, Or.inr ⟨e.2, List.mem_of_find?_eq_some hf, ?_⟩⟩
    have hps := List.find?_some hf
    simp only [decide_eq_true_eq] at hps
    exact hps

/-- Witness for C1 (amended): with two boxes side by side, moving right from
pane 1 activates a pane of the snapshot whose box contains the probe point. -/
theorem c1_move_focus_total_witness :
    lookup_wp [(1, ⟨0, 0, 10, 10⟩), (2, ⟨11, 0, 10, 10⟩)] 1 = some ⟨0, 0, 10, 10⟩ ∧
    ∃ a2, move_focus [(1, ⟨0, 0, 10, 10⟩), (2, ⟨11, 0, 10, 10⟩)] 1 Direction.right =
        some a2 ∧
      (a2 = 1 ∨ ∃ wp2,
        (a2, wp2) ∈ [((1 : PaneId), WritePosition.mk 0 0 10 10), (2, ⟨11, 0, 10, 10⟩)] ∧
        wp_contains wp2 (probe_point Direction.right ⟨0, 0, 10, 10⟩).1
          (probe_point Direction.right ⟨0, 0, 10, 10⟩).2) :=
  ⟨by decide, c1_move_focus_total _ 1 Direction.right _ (by decide)⟩

/-- Helper: the equation of `drain_buffer` when the buffer holds a NUL. -/
theorem drain_buffer_of_mem (buf : List Nat) (h : (0 : Nat) ∈ buf) :
    drain_buffer buf =
      (buf.take (buf.indexOf 0) :: (drain_buffer (buf.drop (buf.indexOf 0 + 1))).1,
       (drain_buffer (buf.drop (buf.indexOf 0 + 1))).2) := by
  conv_lhs => rw [drain_buffer.eq_def]
  rw [dif_pos h]

/-- Helper: the equation of `drain_buffer` when the buffer is NUL-free. -/
theorem drain_buffer_of_not_mem (buf : List Nat) (h : (0 : Nat) ∉ buf) :
    drain_buffer buf = ([], buf) := by
  conv_lhs => rw [drain_buffer.eq_def]
  rw [dif_neg h]

/-- Helper: the receive loop always drains every complete packet, so the
residual buffer is NUL-free. -/
theorem drain_buffer_no_nul (buf : List Nat) : (0 : Nat) ∉ (drain_buffer buf).2 := by
  by_cases h : (0 : Nat) ∈ buf
  · rw [drain_buffer_of_mem buf h]
    exact drain_buffer_no_nul (buf.drop (buf.indexOf 0 + 1))
  · rw [drain_buffer_of_not_mem buf h]
    exact h
termination_by buf.length
decreasing_by
  have hlt : buf.indexOf 0 < buf.length := List.indexOf_lt_length.mpr h
  simp only [List.length_drop]
  omega

/-- Helper: draining `a ++ b` first drains `a`, then drains its residue
prefixed to `b`.  This is the key algebraic fact behind chunking invariance. -/
theorem drain_buffer_append (a b : List Nat) :
    drain_buffer (a ++ b) =
      ((drain_buffer a).1 ++ (drain_buffer ((drain_buffer a).2 ++ b)).1,
       (drain_buffer ((drain_buffer a).2 ++ b)).2) := by
  by_cases h : (0 : Nat) ∈ a
  · have hpos : a.indexOf 0 < a.length := List.indexOf_lt_length.mpr h
    have hmem : (0 : Nat) ∈ a ++ b := List.mem_append_left b h
    have hidx : (a ++ b).indexOf 0 = a.indexOf 0 := List.indexOf_append_of_mem h
    have htake : (a ++ b).take (a.indexOf 0) = a.take (a.indexOf 0) :=
      List.take_append_of_le_length (Nat.le_of_lt hpos)
    have hdrop : (a ++ b).drop (a.indexOf 0 + 1) = a.drop (a.indexOf 0 + 1) ++ b :=
      List.drop_append_of_le_length hpos
    rw [drain_buffer_of_mem _ hmem, hidx, htake, hdrop, drain_buffer_of_mem a h,
      drain_buffer_append (a.drop (a.indexOf 0 + 1)) b]
    simp
  · rw [drain_buffer_of_not_mem a h]
    simp
termination_by a.length
decreasing_by
  simp only [List.length_drop]
  omega

/-- Helper: running the receive loop from a NUL-free buffer over any chunk
sequence is the same as draining the whole concatenation at once. -/
theorem recv_chunks_eq_drain (cs : List (List Nat)) (buf : List Nat)
    (h : (0 : Nat) ∉ buf) :
    recv_chunks buf cs = drain_buffer (buf ++ cs.flatten) := by
  induction cs generalizing buf with
  | nil =>
    rw [List.flatten_nil, List.append_nil, drain_buffer_of_not_mem buf h]
    rfl
  | cons c cs ih =>
    have hr := ih (drain_buffer (buf ++ c)).2 (drain_buffer_no_nul (buf ++ c))
    calc recv_chunks buf (c :: cs)
        = ((drain_buffer (buf ++ c)).1 ++ (recv_chunks (drain_buffer (buf ++ c)).2 cs).1,
           (recv_chunks (drain_buffer (buf ++ c)).2 cs).2) := rfl
      _ = ((drain_buffer (buf ++ c)).1 ++
             (drain_buffer ((drain_buffer (buf ++ c)).2 ++ cs.flatten)).1,
           (drain_buffer ((drain_buffer (buf ++ c)).2 ++ cs.flatten)).2) := by rw [hr]
      _ = drain_buffer ((buf ++ c) ++ cs.flatten) := (drain_buffer_append _ _).symm
      _ = drain_buffer (buf ++ (c :: cs).flatten) := by
          rw [List.flatten_cons, List.append_assoc]

/-- Helper: draining the wire image of a NUL-free packet sequence recovers
exactly that packet sequence, with an empty residue. -/
theorem drain_encode (ps : List (List Nat)) (hp : ∀ p ∈ ps, (0 : Nat) ∉ p) :
    drain_buffer (encode_packets ps) = (ps, []) := by
  induction ps with
  | nil =>
    rw [show encode_packets [] = [] from rfl,
      drain_buffer_of_not_mem [] (by simp)]
  | cons p ps ih =>
    have hp0 : (0 : Nat) ∉ p := hp p (List.mem_cons_self p ps)
    have hrest := ih (fun q hq => hp q (List.mem_cons_of_mem p hq))
    have henc : encode_packets (p :: ps) = (p ++ [0]) ++ encode_packets ps := by
      simp [encode_packets]
    have hone : drain_buffer (p ++ [0]) = ([p], []) := by
      have hm : (0 : Nat) ∈ p ++ [0] := by simp
      have hidx : (p ++ [0]).indexOf 0 = p.length := by
        rw [List.indexOf_append_of_not_mem hp0, List.indexOf_cons_self]
        omega
      have htake : (p ++ [0]).take p.length = p := List.take_left p [0]
      have hdrop : (p ++ [0]).drop (p.length + 1) = [] :=
        List.drop_eq_nil_of_le (by simp)
      rw [drain_buffer_of_mem _ hm, hidx, htake, hdrop,
        drain_buffer_of_not_mem [] (by simp)]
    rw [henc, drain_buffer_append (p ++ [0]) (encode_packets ps), hone]
    simp [hrest]

/-- C3: for every sequence of NUL-free packets sent as NUL-terminated records
(`Client._send_packet`) and every way of splitting or coalescing the wire
bytes into `socket.recv` chunks, the receive loop of `Client.attach` delivers
to `_process` exactly the same packets as it would for the unsplit stream —
namely the original packets, with nothing left in the buffer: the NUL
delimiter alone determines packet boundaries. -/
theorem c3_chunking_invariance (ps cs : List (List Nat))
    (hp : ∀ p ∈ ps, (0 : Nat) ∉ p) (hw : cs.flatten = encode_packets ps) :
    recv_chunks [] cs = recv_chunks [] [cs.flatten] ∧
    (recv_chunks [] cs).1 = ps ∧ (recv_chunks [] cs).2 = [] := by
  have h1 : recv_chunks [] cs = drain_buffer cs.flatten := by
    rw [recv_chunks_eq_drain cs [] (by simp), List.nil_append]
  have h2 : recv_chunks [] [cs.flatten] = drain_buffer cs.flatten := by
    rw [recv_chunks_eq_drain [cs.flatten] [] (by simp), List.nil_append,
      List.flatten_cons, List.flatten_nil, List.append_nil]
  refine ⟨by rw [h1, h2], ?_, ?_⟩
  · rw [h1, hw, drain_encode ps hp]
  · rw [h1, hw, drain_encode ps hp]

/-- Witness for C3: the packets `[49]` and `[50, 51]` survive a chunking that
splits one packet across reads and coalesces the delimiter of another. -/
theorem c3_chunking_invariance_witness :
    (∀ p ∈ [[49], [50, 51]], (0 : Nat) ∉ p) ∧
    ([[49, 0, 50], [51, 0]] : List (List Nat)).flatten =
      encode_packets [[49], [50, 51]] ∧
    (recv_chunks [] [[49, 0, 50], [51, 0]] =
        recv_chunks [] [[[49, 0, 50], [51, 0]].flatten] ∧
     (recv_chunks [] [[49, 0, 50], [51, 0]]).1 = [[49], [50, 51]] ∧
     (recv_chunks [] [[49, 0, 50], [51, 0]]).2 = []) :=
  ⟨by decide, by decide,
   c3_chunking_invariance [[49], [50, 51]] [[49, 0, 50], [51, 0]] (by decide) (by decide)⟩

end Pymux
